import Mathlib

/-!
# Verification of the hono-oauth-provider OAuth 2.1 proxy

Shallow embedding of the storage adapters
(`src/packages/hono-oauth-provider/src/storage/memory.ts`,
`src/packages/hono-oauth-provider/src/storage/cloudflare-kv.ts`,
`src/packages/hono-oauth-provider/src/__tests__/test-helpers/TestStorage.ts`)
and of the OAuth provider core (authorization state machine, token issuance
engine, introspection).  The provider core `oauth-provider.ts` is not part of
the source tree delivered here (only its tests, storage adapters and re-export
index are), so the core operations are modelled from the specification
(`spec.md`) and are marked `Modelled from the spec:` in their doc comments.

Time is passed explicitly in milliseconds (the JavaScript `Date.now()` value);
`expirationTtl` is in whole seconds, as in the storage interface.
-/

namespace HonoOAuth

/-! ## Association-list primitives

JavaScript `Map` objects keyed by strings are embedded as association lists
`List (String × α)`; `lookupL` is `Map.get`, `setL` is `Map.set` (the key is
kept unique), `eraseL` is `Map.delete`.  Iteration order is not relied upon by
any claim. -/

def lookupL {α : Type} : List (String × α) → String → Option α
  | [], _ => none
  | (k, v) :: rest, key => if k = key then some v else lookupL rest key

def eraseL {α : Type} (m : List (String × α)) (k : String) : List (String × α) :=
  m.filter (fun p => decide (p.1 ≠ k))

def setL {α : Type} (m : List (String × α)) (k : String) (v : α) : List (String × α) :=
  eraseL m k ++ [(k, v)]

theorem eraseL_cons_self {α : Type} (p : String × α) (rest : List (String × α))
    (k : String) (hp : p.1 = k) : eraseL (p :: rest) k = eraseL rest k := by
  simp [eraseL, List.filter_cons, hp]

theorem eraseL_cons_ne {α : Type} (p : String × α) (rest : List (String × α))
    (k : String) (hp : p.1 ≠ k) : eraseL (p :: rest) k = p :: eraseL rest k := by
  simp [eraseL, List.filter_cons, hp]

theorem lookupL_eraseL_self {α : Type} (m : List (String × α)) (k : String) :
    lookupL (eraseL m k) k = none := by
  induction m with
  | nil => rfl
  | cons p rest ih =>
    by_cases hp : p.1 = k
    · rw [eraseL_cons_self p rest k hp, ih]
    · rw [eraseL_cons_ne p rest k hp, lookupL, if_neg hp, ih]

theorem lookupL_eraseL_ne {α : Type} (m : List (String × α)) (k k' : String)
    (h : k' ≠ k) : lookupL (eraseL m k) k' = lookupL m k' := by
  induction m with
  | nil => rfl
  | cons p rest ih =>
    by_cases hp : p.1 = k
    · have hpk' : ¬ p.1 = k' := by rw [hp]; exact fun hh => h hh.symm
      rw [eraseL_cons_self p rest k hp, ih, lookupL, if_neg hpk']
    · rw [eraseL_cons_ne p rest k hp, lookupL, lookupL]
      by_cases hk : p.1 = k'
      · rw [if_pos hk, if_pos hk]
      · rw [if_neg hk, if_neg hk, ih]

theorem lookupL_append {α : Type} (l₁ l₂ : List (String × α)) (k : String) :
    lookupL (l₁ ++ l₂) k =
      match lookupL l₁ k with
      | some v => some v
      | none => lookupL l₂ k := by
  induction l₁ with
  | nil => simp [lookupL]
  | cons p rest ih =>
    by_cases h : p.1 = k
    · simp [lookupL, h]
    · simp only [List.cons_append, lookupL, if_neg h]
      exact ih

theorem lookupL_setL_self {α : Type} (m : List (String × α)) (k : String) (v : α) :
    lookupL (setL m k v) k = some v := by
  rw [setL, lookupL_append, lookupL_eraseL_self]
  simp [lookupL]

theorem lookupL_setL_ne {α : Type} (m : List (String × α)) (k k' : String) (v : α)
    (h : k' ≠ k) : lookupL (setL m k v) k' = lookupL m k' := by
  rw [setL, lookupL_append, lookupL_eraseL_ne m k k' h]
  cases hm : lookupL m k' with
  | some w => rfl
  | none =>
    show lookupL [(k, v)] k' = none
    simp only [lookupL]
    rw [if_neg (fun hh : k = k' => h hh.symm)]

theorem lookupL_filter_none {α : Type} (m : List (String × α)) (P : String × α → Bool)
    (k : String) (h : lookupL m k = none) : lookupL (m.filter P) k = none := by
  induction m with
  | nil => rfl
  | cons p rest ih =>
    simp only [lookupL] at h
    by_cases hk : p.1 = k
    · rw [if_pos hk] at h
      exact absurd h (by simp)
    · rw [if_neg hk] at h
      simp only [List.filter_cons]
      cases hP : P p with
      | true => simp only [if_pos rfl, lookupL, if_neg hk]; exact ih h
      | false => simpa using ih h

theorem lookupL_filter_some {α : Type} (m : List (String × α)) (P : String × α → Bool)
    (k : String) (v : α) (h : lookupL (m.filter P) k = some v) : P (k, v) = true := by
  induction m with
  | nil => exact absurd h (by simp [lookupL])
  | cons p rest ih =>
    simp only [List.filter_cons] at h
    cases hP : P p with
    | true =>
      rw [hP] at h
      simp only [if_pos rfl, lookupL] at h
      by_cases hk : p.1 = k
      · rw [if_pos hk] at h
        have hv : p.2 = v := by injection h
        have hpv : p = (k, v) := by cases p; simp_all
        rw [← hpv]; exact hP
      · rw [if_neg hk] at h
        exact ih h
    | false =>
      rw [hP] at h
      simp only [Bool.false_eq_true, if_neg] at h
      exact ih (by simpa using h)

theorem lookupL_setL_filter_out {α : Type} (m : List (String × α))
    (P : String × α → Bool) (k : String) (v : α) (h : P (k, v) = false) :
    lookupL ((setL m k v).filter P) k = none := by
  rw [setL, List.filter_append, lookupL_append,
    lookupL_filter_none (eraseL m k) P k (lookupL_eraseL_self m k)]
  simp [List.filter_cons, h, lookupL]

/-! ## In-memory storage adapters

`MemoryStorage` (`storage/memory.ts`) and `TestStorage`
(`__tests__/test-helpers/TestStorage.ts`) have identical `get`/`put`/
`delete`/`list` bodies: a `store` map holding the string values and a `ttls`
map holding absolute expiry instants in milliseconds.  One embedding covers
both adapters.  `Date.now()` is the explicit `now` argument.  The
`{type: "json"}` read mode (a `JSON.parse` of the same stored string) is not
modelled; all claims are about the raw string layer. -/

structure MemoryStorage where
  store : List (String × String)
  ttls : List (String × Nat)
  deriving DecidableEq

/-- `MemoryStorage.get`: JavaScript `if (ttl && Date.now() > ttl)` deletes the
entry and returns `null`; the truthiness test on `ttl` is the `t ≠ 0` guard.
Returns the value (or `none`) together with the updated adapter state. -/
def MemoryStorage.get (s : MemoryStorage) (key : String) (now : Nat) :
    Option String × MemoryStorage :=
  match lookupL s.ttls key with
  | some t =>
    if t ≠ 0 ∧ now > t then
      (none, ⟨eraseL s.store key, eraseL s.ttls key⟩)
    else
      (lookupL s.store key, s)
  | none => (lookupL s.store key, s)

/-- `MemoryStorage.put`: stores the value; the JavaScript
`if (options?.expirationTtl)` truthiness test means an absent option or a TTL
of `0` deletes any previously recorded expiry, otherwise the expiry is
`Date.now() + expirationTtl * 1000`. -/
def MemoryStorage.put (s : MemoryStorage) (key value : String)
    (expirationTtl : Option Nat) (now : Nat) : MemoryStorage :=
  { store := setL s.store key value,
    ttls :=
      match expirationTtl with
      | some n => if n ≠ 0 then setL s.ttls key (now + n * 1000) else eraseL s.ttls key
      | none => eraseL s.ttls key }

/-- `MemoryStorage.delete`: removes the key from both maps. -/
def MemoryStorage.delete (s : MemoryStorage) (key : String) : MemoryStorage :=
  ⟨eraseL s.store key, eraseL s.ttls key⟩

/-- `!options?.prefix || key.startsWith(options.prefix)` from
`MemoryStorage.list`. -/
def pfxOk : Option String → String → Bool
  | none, _ => true
  | some p, key => key.startsWith p

/-- The loop body of `MemoryStorage.list`: walks `store.entries()`, deletes
expired entries from both maps as it goes, and collects the names matching the
optional name filter.  Returns (names, surviving store entries, updated ttls). -/
def listLoop (now : Nat) (pfx : Option String) :
    List (String × String) → List (String × Nat) →
      List String × List (String × String) × List (String × Nat)
  | [], ttls => ([], [], ttls)
  | (k, v) :: rest, ttls =>
    match lookupL ttls k with
    | some t =>
      if t ≠ 0 ∧ now > t then
        listLoop now pfx rest (eraseL ttls k)
      else
        let r := listLoop now pfx rest ttls
        (if pfxOk pfx k then k :: r.1 else r.1, (k, v) :: r.2.1, r.2.2)
    | none =>
      let r := listLoop now pfx rest ttls
      (if pfxOk pfx k then k :: r.1 else r.1, (k, v) :: r.2.1, r.2.2)

/-- `MemoryStorage.list`: returns the key names surviving TTL filtering and
matching the optional name filter, together with the pruned adapter state. -/
def MemoryStorage.list (s : MemoryStorage) (pfx : Option String) (now : Nat) :
    List String × MemoryStorage :=
  let r := listLoop now pfx s.store s.ttls
  (r.1, ⟨r.2.1, r.2.2⟩)

theorem listLoop_cons_expired (now : Nat) (pfx : Option String) (k v : String)
    (rest : List (String × String)) (ttls : List (String × Nat)) (t : Nat)
    (h : lookupL ttls k = some t) (h0 : t ≠ 0) (hn : now > t) :
    listLoop now pfx ((k, v) :: rest) ttls = listLoop now pfx rest (eraseL ttls k) := by
  simp [listLoop, h, h0, hn]

theorem listLoop_cons_live (now : Nat) (pfx : Option String) (k v : String)
    (rest : List (String × String)) (ttls : List (String × Nat)) (t : Nat)
    (h : lookupL ttls k = some t) (hexp : ¬(t ≠ 0 ∧ now > t)) :
    listLoop now pfx ((k, v) :: rest) ttls =
      ((if pfxOk pfx k then k :: (listLoop now pfx rest ttls).1
        else (listLoop now pfx rest ttls).1),
       (k, v) :: (listLoop now pfx rest ttls).2.1,
       (listLoop now pfx rest ttls).2.2) := by
  simp only [listLoop, h]
  rw [if_neg hexp]

theorem listLoop_cons_nottl (now : Nat) (pfx : Option String) (k v : String)
    (rest : List (String × String)) (ttls : List (String × Nat))
    (h : lookupL ttls k = none) :
    listLoop now pfx ((k, v) :: rest) ttls =
      ((if pfxOk pfx k then k :: (listLoop now pfx rest ttls).1
        else (listLoop now pfx rest ttls).1),
       (k, v) :: (listLoop now pfx rest ttls).2.1,
       (listLoop now pfx rest ttls).2.2) := by
  simp [listLoop, h]

/-- If `k`'s only entry sits at the end of the walked store and its TTL says
expired, `k` is missing from the collected names. -/
theorem not_mem_listLoop_of_expired (now : Nat) (pfx : Option String) (k : String)
    (v : String) (t : Nat) (ht : t ≠ 0) (hnow : now > t) :
    ∀ (l : List (String × String)) (ttls : List (String × Nat)),
      (∀ w, (k, w) ∉ l) → lookupL ttls k = some t →
      k ∉ (listLoop now pfx (l ++ [(k, v)]) ttls).1 := by
  intro l
  induction l with
  | nil =>
    intro ttls _ hT
    rw [List.nil_append, listLoop_cons_expired now pfx k v [] ttls t hT ht hnow]
    simp [listLoop]
  | cons p rest ih =>
    intro ttls hmem hT
    have hk : p.1 ≠ k := by
      intro hh
      exact hmem p.2 (by rw [← hh]; exact List.mem_cons_self p rest)
    have hrest : ∀ w, (k, w) ∉ rest := fun w hv => hmem w (List.mem_cons_of_mem p hv)
    cases p with
    | mk k₁ v₁ =>
      rw [List.cons_append]
      have hk' : k ≠ k₁ := fun hh => hk hh.symm
      cases hT₁ : lookupL ttls k₁ with
      | some t₁ =>
        by_cases hexp : t₁ ≠ 0 ∧ now > t₁
        · rw [listLoop_cons_expired now pfx k₁ v₁ _ ttls t₁ hT₁ hexp.1 hexp.2]
          exact ih (eraseL ttls k₁) hrest
            (by rw [lookupL_eraseL_ne ttls k₁ k hk']; exact hT)
        · rw [listLoop_cons_live now pfx k₁ v₁ _ ttls t₁ hT₁ hexp]
          by_cases hpf : pfxOk pfx k₁
          · simp only [hpf, if_pos]
            intro hmem'
            rcases List.mem_cons.mp hmem' with h1 | h2
            · exact hk h1.symm
            · exact ih ttls hrest hT h2
          · simp only [hpf, Bool.false_eq_true, if_false]
            exact ih ttls hrest hT
      | none =>
        rw [listLoop_cons_nottl now pfx k₁ v₁ _ ttls hT₁]
        by_cases hpf : pfxOk pfx k₁
        · simp only [hpf, if_pos]
          intro hmem'
          rcases List.mem_cons.mp hmem' with h1 | h2
          · exact hk h1.symm
          · exact ih ttls hrest hT h2
        · simp only [hpf, Bool.false_eq_true, if_false]
          exact ih ttls hrest hT

theorem not_mem_key_eraseL {α : Type} (m : List (String × α)) (k : String) :
    ∀ v, (k, v) ∉ eraseL m k := by
  intro v hv
  have := List.of_mem_filter hv
  simp at this

/-- C8: a key written to the in-memory storage with `expirationTtl` of `n`
whole seconds (`n ≥ 1`; a TTL of `0` is falsy and sets no expiry, see the
C10 result) is gone from `get` once more than `n` seconds have elapsed, is
excluded from every `list()` result from that point on, and is still returned
by `get` before expiry.  Times are in milliseconds, so "more than `n` seconds
after the `put` at `t0`" is `t0 + n * 1000 < t1`. -/
theorem ttl_expiry_semantics (st : MemoryStorage) (k v : String) (n t0 t1 t2 : Nat)
    (hn : 0 < n) (hlate : t0 + n * 1000 < t1) (hearly : t2 ≤ t0 + n * 1000) :
    (((st.put k v (some n) t0).get k t1).1 = none)
    ∧ (∀ pfx, k ∉ ((st.put k v (some n) t0).list pfx t1).1)
    ∧ (((st.put k v (some n) t0).get k t2).1 = some v) := by
  have hne : n ≠ 0 := Nat.pos_iff_ne_zero.mp hn
  have h0 : t0 + n * 1000 ≠ 0 := by omega
  have hT : lookupL (st.put k v (some n) t0).ttls k = some (t0 + n * 1000) := by
    simp only [MemoryStorage.put]
    rw [if_pos hne, lookupL_setL_self]
  have hS : lookupL (st.put k v (some n) t0).store k = some v := by
    simp only [MemoryStorage.put]
    rw [lookupL_setL_self]
  refine ⟨?_, ?_, ?_⟩
  · simp only [MemoryStorage.get, hT]
    rw [if_pos ⟨h0, hlate⟩]
  · intro pfx
    simp only [MemoryStorage.list, MemoryStorage.put]
    rw [if_pos hne]
    simp only [setL]
    exact not_mem_listLoop_of_expired t1 pfx k v (t0 + n * 1000) h0 hlate
      (eraseL st.store k) (setL st.ttls k (t0 + n * 1000))
      (not_mem_key_eraseL st.store k) (lookupL_setL_self st.ttls k (t0 + n * 1000))
  · simp only [MemoryStorage.get, hT]
    rw [if_neg (by omega : ¬(t0 + n * 1000 ≠ 0 ∧ t2 > t0 + n * 1000)), hS]

/-- Witness for the C8 theorem at `n = 1`, `t0 = 0`, reads at `1001` ms and
`1000` ms. -/
theorem ttl_expiry_semantics_witness :
    ((((MemoryStorage.mk [] []).put "k" "v" (some 1) 0).get "k" 1001).1 = none)
    ∧ ("k" ∉ (((MemoryStorage.mk [] []).put "k" "v" (some 1) 0).list none 1001).1)
    ∧ ((((MemoryStorage.mk [] []).put "k" "v" (some 1) 0).get "k" 1000).1 = some "v") :=
  let h := ttl_expiry_semantics ⟨[], []⟩ "k" "v" 1 0 1001 1000
    (by decide) (by decide) (by decide)
  ⟨h.1, h.2.1 none, h.2.2⟩

/-- C10: in the in-memory adapters (`MemoryStorage.put` and the identical
`TestStorage.put`), a `put` whose options omit `expirationTtl` or pass
`expirationTtl: 0` (both falsy in `if (options?.expirationTtl)`) deletes any
previously recorded expiry for the key, so the entry becomes persistent: a
`get` at any later instant returns the value. -/
theorem put_without_ttl_persists (st : MemoryStorage) (k v : String)
    (opt : Option Nat) (t0 : Nat) (hopt : opt = none ∨ opt = some 0) :
    lookupL ((st.put k v opt t0).ttls) k = none
    ∧ ∀ t, (((st.put k v opt t0).get k t).1 = some v) := by
  have httls : (st.put k v opt t0).ttls = eraseL st.ttls k := by
    rcases hopt with h | h <;> subst h <;> simp [MemoryStorage.put]
  have hT : lookupL ((st.put k v opt t0).ttls) k = none := by
    rw [httls, lookupL_eraseL_self]
  have hS : lookupL (st.put k v opt t0).store k = some v := by
    simp only [MemoryStorage.put]
    rw [lookupL_setL_self]
  refine ⟨hT, fun t => ?_⟩
  simp only [MemoryStorage.get, hT, hS]

/-- Witness for the C10 theorem: overwriting an entry that was due to expire
at `500` ms with a `put` carrying `expirationTtl: 0` clears the expiry and the
value is still readable at `999999` ms. -/
theorem put_without_ttl_persists_witness :
    lookupL (((MemoryStorage.mk [("k", "old")] [("k", 500)]).put "k" "v" (some 0) 0).ttls) "k" = none
    ∧ (((MemoryStorage.mk [("k", "old")] [("k", 500)]).put "k" "v" (some 0) 0).get "k" 999999).1 = some "v" :=
  let h := put_without_ttl_persists ⟨[("k", "old")], [("k", 500)]⟩ "k" "v" (some 0) 0 (Or.inr rfl)
  ⟨h.1, h.2 999999⟩

/-! ## Cloudflare KV storage adapter (`storage/cloudflare-kv.ts`)

The wrapped `KVNamespace` is external; it is embedded as a record of
possibly-throwing operations (`Except String` models a thrown exception
carrying its message).  The adapter's `try`/`catch` policy is what C9 is
about. -/

structure KVNamespace where
  kvGet : String → Except String (Option String)
  kvPut : String → String → Option Nat → Except String Unit
  kvDelete : String → Except String Unit
  kvList : Option String → Except String (List String)

/-- `KVStorage.get`: `try { return await this.kv.get(key) } catch { return null }`. -/
def KVStorage.get (kv : KVNamespace) (key : String) : Option String :=
  match kv.kvGet key with
  | .ok v => v
  | .error _ => none

/-- `KVStorage.put`: forwards to `kv.put`, passing `expirationTtl` only when
truthy, and rethrows any exception. -/
def KVStorage.put (kv : KVNamespace) (key value : String)
    (expirationTtl : Option Nat) : Except String Unit :=
  kv.kvPut key value
    (match expirationTtl with
     | some n => if n ≠ 0 then some n else none
     | none => none)

/-- `KVStorage.delete`: forwards to `kv.delete` and rethrows any exception. -/
def KVStorage.delete (kv : KVNamespace) (key : String) : Except String Unit :=
  kv.kvDelete key

/-- `KVStorage.list`: `try { ... } catch { return { keys: [] } }`. -/
def KVStorage.list (kv : KVNamespace) (pfx : Option String) : List String :=
  match kv.kvList pfx with
  | .ok ks => ks
  | .error _ => []

/-- C9: in the Cloudflare KV adapter, a `get` over a throwing KV namespace
returns `null` instead of propagating, a `list` over a throwing namespace
returns an empty key list, and exceptions thrown by `put` or `delete` are
rethrown to the caller unchanged. -/
theorem kv_error_policy (kv : KVNamespace) (key value : String)
    (ttl : Option Nat) (pfx : Option String) (e₁ e₂ e₃ e₄ : String) :
    (kv.kvGet key = .error e₁ → KVStorage.get kv key = none)
    ∧ (kv.kvList pfx = .error e₂ → KVStorage.list kv pfx = [])
    ∧ (kv.kvPut key value
        (match ttl with | some n => if n ≠ 0 then some n else none | none => none)
          = .error e₃ →
        KVStorage.put kv key value ttl = .error e₃)
    ∧ (kv.kvDelete key = .error e₄ → KVStorage.delete kv key = .error e₄) := by
  refine ⟨fun h => ?_, fun h => ?_, fun h => ?_, fun h => ?_⟩
  · simp [KVStorage.get, h]
  · simp [KVStorage.list, h]
  · simp only [KVStorage.put]
    exact h
  · simp only [KVStorage.delete]
    exact h

/-- Witness for the C9 theorem over a namespace that throws on every
operation. -/
theorem kv_error_policy_witness :
    KVStorage.get
        ⟨fun _ => .error "ga", fun _ _ _ => .error "pa",
         fun _ => .error "da", fun _ => .error "la"⟩ "k" = none
    ∧ KVStorage.list
        ⟨fun _ => .error "ga", fun _ _ _ => .error "pa",
         fun _ => .error "da", fun _ => .error "la"⟩ none = []
    ∧ KVStorage.put
        ⟨fun _ => .error "ga", fun _ _ _ => .error "pa",
         fun _ => .error "da", fun _ => .error "la"⟩ "k" "v" (some 60) = .error "pa"
    ∧ KVStorage.delete
        ⟨fun _ => .error "ga", fun _ _ _ => .error "pa",
         fun _ => .error "da", fun _ => .error "la"⟩ "k" = .error "da" :=
  let kv : KVNamespace :=
    ⟨fun _ => .error "ga", fun _ _ _ => .error "pa",
     fun _ => .error "da", fun _ => .error "la"⟩
  let h := kv_error_policy kv "k" "v" (some 60) none "ga" "la" "pa" "da"
  ⟨h.1 rfl, h.2.1 rfl, h.2.2.1 rfl, h.2.2.2 rfl⟩

/-! ## OAuth provider core

Modelled from the spec: `oauth-provider.ts` is not present in the delivered
source tree (only its tests, the storage adapters and the re-export index
are), so the data model of spec.md §3, the authorization state machine of
§4.2, the token issuance engine of §4.3 and introspection of §4.4 are
embedded from the specification's words.  Randomness (fresh opaque tokens)
is passed in as explicit arguments; time is the explicit `now` argument in
milliseconds; TTL configuration values are in seconds. -/

/-- Modelled from the spec: the OAuth error vocabulary of spec.md §7. -/
inductive OAuthError where
  | invalidRequest
  | invalidClient
  | invalidGrant
  | unsupportedGrantType
  | accessDenied
  | invalidToken
  | serverError
  deriving DecidableEq

/-- Modelled from the spec: the two supported grant types (spec.md §4.3). -/
inductive GrantType where
  | authorizationCode
  | refreshToken
  deriving DecidableEq

/-- Modelled from the spec: Client Record (spec.md §3). -/
structure ClientRec where
  clientId : String
  clientSecret : Option String
  redirectUris : List String
  clientName : String
  authMethod : String
  deriving DecidableEq

/-- Modelled from the spec: CSRF Token Record (spec.md §3). -/
structure CsrfRec where
  clientId : String
  redirectUri : String
  expiresAt : Nat
  deriving DecidableEq

/-- Modelled from the spec: Authorization Code Record (spec.md §3); `context`
is the opaque upstream context bag. -/
structure AuthCodeRec where
  clientId : String
  redirectUri : String
  scope : String
  userId : String
  codeChallenge : Option String
  codeChallengeMethod : Option String
  context : String
  expiresAt : Nat
  deriving DecidableEq

/-- Modelled from the spec: Access Token Record (spec.md §3); carries the
refresh-token family identifier so that token-family compromise can cascade
to the paired access token, as §4.3 and testable property "Refresh rotation"
require the access token from a rotation to be invalidated with its family. -/
structure AccessRec where
  clientId : String
  userId : String
  scope : String
  context : String
  familyId : String
  expiresAt : Nat
  deriving DecidableEq

/-- Modelled from the spec: Refresh Token Record (spec.md §3). -/
structure RefreshRec where
  clientId : String
  userId : String
  scope : String
  context : String
  familyId : String
  expiresAt : Nat
  deriving DecidableEq

/-- Modelled from the spec: the short-lived "already rotated" marker a
rotation leaves behind for reuse detection (spec.md §4.3), recording the
family of the rotated-away refresh token together with the marker's own
expiry. -/
structure RotatedMarker where
  familyId : String
  expiresAt : Nat
  deriving DecidableEq

/-- Modelled from the spec: the provider's keyed records, one association
list per record kind (spec.md §3 keeps them under distinct key namespaces of
one string store). -/
structure ProviderState where
  clients : List (String × ClientRec)
  csrfs : List (String × CsrfRec)
  codes : List (String × AuthCodeRec)
  accessTokens : List (String × AccessRec)
  refreshTokens : List (String × RefreshRec)
  rotatedMarkers : List (String × RotatedMarker)
  deriving DecidableEq

/-- Modelled from the spec: the immutable provider configuration captured at
construction (spec.md §9); `hash` abstracts the S256 digest
(SHA-256 + base64url) and `callback` is the external token-exchange callback
of §6, which may reject. -/
structure OAuthConfig where
  issuer : String
  strictMode : Bool
  scopesSupported : List String
  accessTtl : Nat
  refreshTtl : Nat
  csrfTtl : Nat
  codeTtl : Nat
  markerTtl : Nat
  hash : String → String
  callback : GrantType → String → Except OAuthError String

/-- Modelled from the spec: standard token response (spec.md §4.3). -/
structure TokenResponse where
  accessToken : String
  tokenType : String
  expiresIn : Nat
  refreshToken : String
  scope : String
  deriving DecidableEq

/-- `true` iff the first list opens the second one. -/
def headMatches : List Char → List Char → Bool
  | [], _ => true
  | _ :: _, [] => false
  | a :: as, b :: bs => a == b && headMatches as bs

/-- `true` iff `needle` occurs contiguously inside the list. -/
def hasSub (needle : List Char) : List Char → Bool
  | [] => headMatches needle []
  | b :: bs => headMatches needle (b :: bs) || hasSub needle bs

/-- `true` iff `needle` occurs as a substring of `s`. -/
def mentions (needle s : String) : Bool :=
  hasSub needle.data s.data

/-- Optional `state` request parameter echoed into redirect parameters. -/
def stateParam : Option String → List (String × String)
  | none => []
  | some s => [("state", s)]

/-- Splits a character list into space-separated words (the scope-string
format); `cur` is the reversed word being accumulated. -/
def scopeWords : List Char → List Char → List (List Char)
  | cur, [] => [cur.reverse]
  | cur, c :: cs => if c = ' ' then cur.reverse :: scopeWords [] cs
      else scopeWords (c :: cur) cs

/-- Modelled from the spec: requested scope must be a subset of the
configured supported scopes (spec.md §4.2); an absent scope is acceptable. -/
def scopeOk (cfg : OAuthConfig) (scope : Option String) : Bool :=
  match scope with
  | none => true
  | some s => (scopeWords [] s.data).all
      (fun w => (cfg.scopesSupported.map String.data).contains w)

/-- Modelled from the spec: a `GET /authorize` request's query parameters
(spec.md §4.2). -/
structure AuthQuery where
  responseType : String
  clientId : String
  redirectUri : String
  scope : Option String
  state : Option String
  codeChallenge : Option String
  codeChallengeMethod : Option String
  deriving DecidableEq

/-- Modelled from the spec: outcome of `GET /authorize` — a direct JSON error
(the HTTP status is the first field), a `302` redirect delivering an error to
the now-trusted `redirect_uri` (the first field is the status `302`), or the
consent-page data handed to the caller's render function together with the
freshly minted CSRF token. -/
inductive GetResult where
  | jsonError (status : Nat) (error : String) (errorDescription : String)
  | redirectError (status : Nat) (base : String) (params : List (String × String))
  | consentPage (clientName : String) (csrfToken : String)
  deriving DecidableEq

/-- Modelled from the spec: `GET /authorize` (spec.md §4.2).  Validates
`response_type=code`, client existence, exact-match `redirect_uri`, scope,
and — in strict mode for a public client — the presence of `code_challenge`.
Failures before the `redirect_uri` is verified are direct JSON 400 responses;
failures after it are delivered by redirect with `error`, `error_description`,
`state` and `iss`.  On success a CSRF token bound to
`(client_id, redirect_uri)` is stored with a short TTL. -/
def getAuthorize (cfg : OAuthConfig) (st : ProviderState) (q : AuthQuery)
    (now : Nat) (newCsrf : String) : GetResult × ProviderState :=
  if q.responseType ≠ "code" then
    (.jsonError 400 "invalid_request" "response_type must be code", st)
  else
    match lookupL st.clients q.clientId with
    | none => (.jsonError 400 "invalid_client" "Unknown client", st)
    | some client =>
      if ¬ client.redirectUris.contains q.redirectUri then
        (.jsonError 400 "invalid_request" "Invalid redirect_uri", st)
      else if ¬ scopeOk cfg q.scope then
        (.redirectError 302 q.redirectUri
          ([("error", "invalid_scope")] ++ stateParam q.state
            ++ [("iss", cfg.issuer)]), st)
      else if cfg.strictMode ∧ client.authMethod = "none" ∧ q.codeChallenge = none then
        (.redirectError 302 q.redirectUri
          ([("error", "invalid_request"),
            ("error_description", "PKCE code_challenge is required for public clients")]
            ++ stateParam q.state ++ [("iss", cfg.issuer)]), st)
      else
        let crec : CsrfRec := ⟨q.clientId, q.redirectUri, now + cfg.csrfTtl * 1000⟩
        (.consentPage client.clientName newCsrf,
         { st with csrfs := setL st.csrfs newCsrf crec })

/-- Modelled from the spec: the `POST /authorize` form body (spec.md §4.2);
`codeChallenge`/`codeChallengeMethod` are the PKCE values round-tripped
through the consent form. -/
structure AuthForm where
  action : String
  csrfToken : String
  clientId : String
  redirectUri : String
  scope : String
  state : Option String
  codeChallenge : Option String
  codeChallengeMethod : Option String
  deriving DecidableEq

/-- Modelled from the spec: outcome of `POST /authorize` — a direct JSON
error (first field is the HTTP status), or a `302` redirect to the
`redirect_uri` with query parameters. -/
inductive PostResult where
  | jsonError (status : Nat) (error : String) (errorDescription : String)
  | redirect (status : Nat) (base : String) (params : List (String × String))
  deriving DecidableEq

/-- Modelled from the spec: `POST /authorize` (spec.md §4.2).  The supplied
CSRF token must exactly match a live stored record for the same client and
redirect URI; any CSRF failure is a direct JSON 400 `invalid_request`
referencing CSRF (the redirect target is not trusted after a CSRF failure).
Successful validation consumes (deletes) the stored token; then
`action=approve` mints an authorization code and redirects with `code`,
`state` and `iss`, while any other action denies and redirects with
`error=access_denied`, `state` and `iss`. -/
def postAuthorize (cfg : OAuthConfig) (st : ProviderState) (f : AuthForm)
    (userId upstreamContext : String) (now : Nat) (newCode : String) :
    PostResult × ProviderState :=
  match lookupL st.csrfs f.csrfToken with
  | none => (.jsonError 400 "invalid_request" "Invalid CSRF token", st)
  | some rec =>
    if now > rec.expiresAt then
      (.jsonError 400 "invalid_request" "Invalid CSRF token", st)
    else if rec.clientId ≠ f.clientId ∨ rec.redirectUri ≠ f.redirectUri then
      (.jsonError 400 "invalid_request" "Invalid CSRF token", st)
    else
      let st₁ : ProviderState := { st with csrfs := eraseL st.csrfs f.csrfToken }
      if f.action = "approve" then
        let codeRec : AuthCodeRec :=
          ⟨f.clientId, f.redirectUri, f.scope, userId, f.codeChallenge,
           f.codeChallengeMethod, upstreamContext, now + cfg.codeTtl * 1000⟩
        (.redirect 302 f.redirectUri
          ([("code", newCode)] ++ stateParam f.state ++ [("iss", cfg.issuer)]),
         { st₁ with codes := setL st₁.codes newCode codeRec })
      else
        (.redirect 302 f.redirectUri
          ([("error", "access_denied")] ++ stateParam f.state ++ [("iss", cfg.issuer)]),
         st₁)

/-- Modelled from the spec: PKCE verification at code exchange (spec.md
§4.3).  If a challenge was bound, a verifier is required; `S256` compares the
digest of the verifier (the digest function is the abstract `cfg.hash`),
`plain` compares the strings. -/
def pkceOk (cfg : OAuthConfig) (codeRec : AuthCodeRec) (verifier : Option String) : Bool :=
  match codeRec.codeChallenge with
  | none => true
  | some ch =>
    match verifier with
    | none => false
    | some v =>
      if codeRec.codeChallengeMethod = some "S256" then cfg.hash v == ch
      else v == ch

/-- Modelled from the spec: the `authorization_code` grant (spec.md §4.3).
Looks up the code (`invalid_grant` when missing, expired, bound to another
client, or failing PKCE), deletes the code record in the same logical
operation as issuing the tokens, invokes the external token-exchange
callback, and persists a fresh access/refresh pair opening a new token
family.  Fresh opaque values are the `newAccess`/`newRefresh`/`newFamily`
arguments. -/
def exchangeCode (cfg : OAuthConfig) (st : ProviderState) (code clientId : String)
    (verifier : Option String) (now : Nat) (newAccess newRefresh newFamily : String) :
    Except OAuthError TokenResponse × ProviderState :=
  match lookupL st.codes code with
  | none => (.error .invalidGrant, st)
  | some codeRec =>
    if now > codeRec.expiresAt then (.error .invalidGrant, st)
    else if codeRec.clientId ≠ clientId then (.error .invalidGrant, st)
    else if ¬ pkceOk cfg codeRec verifier then (.error .invalidGrant, st)
    else
      match cfg.callback .authorizationCode codeRec.context with
      | .error e => (.error e, st)
      | .ok newContext =>
        let aRec : AccessRec :=
          ⟨codeRec.clientId, codeRec.userId, codeRec.scope, newContext,
           newFamily, now + cfg.accessTtl * 1000⟩
        let rRec : RefreshRec :=
          ⟨codeRec.clientId, codeRec.userId, codeRec.scope, newContext,
           newFamily, now + cfg.refreshTtl * 1000⟩
        (.ok ⟨newAccess, "bearer", cfg.accessTtl, newRefresh, codeRec.scope⟩,
         { st with
            codes := eraseL st.codes code,
            accessTokens := setL st.accessTokens newAccess aRec,
            refreshTokens := setL st.refreshTokens newRefresh rRec })

/-- Modelled from the spec: "revoke all with family X" (spec.md §9) — every
access token, refresh token and rotation marker of the family is removed. -/
def revokeFamily (st : ProviderState) (familyId : String) : ProviderState :=
  { st with
      accessTokens := st.accessTokens.filter (fun p => !(p.2.familyId == familyId)),
      refreshTokens := st.refreshTokens.filter (fun p => !(p.2.familyId == familyId)),
      rotatedMarkers := st.rotatedMarkers.filter (fun p => !(p.2.familyId == familyId)) }

/-- Modelled from the spec: the `refresh_token` grant (spec.md §4.3).
A live matching refresh token is rotated: the presented record is deleted, a
short-lived "already rotated" marker is left behind, and a fresh
access/refresh pair sharing the presented token's `familyId` is persisted
after the external callback refreshes the upstream context.  A presented
token that is gone but still covered by a live marker is treated as
token-family compromise: the whole family is revoked and the grant fails
`invalid_grant`.  Any other unknown, expired or client-mismatched token fails
`invalid_grant` without state change. -/
def refreshGrant (cfg : OAuthConfig) (st : ProviderState) (token clientId : String)
    (now : Nat) (newAccess newRefresh : String) :
    Except OAuthError TokenResponse × ProviderState :=
  match lookupL st.refreshTokens token with
  | some rRec =>
    if now > rRec.expiresAt then (.error .invalidGrant, st)
    else if rRec.clientId ≠ clientId then (.error .invalidGrant, st)
    else
      match cfg.callback .refreshToken rRec.context with
      | .error e => (.error e, st)
      | .ok newContext =>
        let aRec : AccessRec :=
          ⟨rRec.clientId, rRec.userId, rRec.scope, newContext,
           rRec.familyId, now + cfg.accessTtl * 1000⟩
        let rRec' : RefreshRec :=
          ⟨rRec.clientId, rRec.userId, rRec.scope, newContext,
           rRec.familyId, now + cfg.refreshTtl * 1000⟩
        let marker : RotatedMarker := ⟨rRec.familyId, now + cfg.markerTtl * 1000⟩
        (.ok ⟨newAccess, "bearer", cfg.accessTtl, newRefresh, rRec.scope⟩,
         { st with
            refreshTokens := setL (eraseL st.refreshTokens token) newRefresh rRec',
            accessTokens := setL st.accessTokens newAccess aRec,
            rotatedMarkers := setL st.rotatedMarkers token marker })
  | none =>
    match lookupL st.rotatedMarkers token with
    | some marker =>
      if now > marker.expiresAt then (.error .invalidGrant, st)
      else (.error .invalidGrant, revokeFamily st marker.familyId)
    | none => (.error .invalidGrant, st)

/-- Modelled from the spec: an introspection response (spec.md §4.4); the
`active` boolean is always present, the remaining fields only for an active
token. -/
structure IntrospectResult where
  active : Bool
  scope : Option String
  clientId : Option String
  exp : Option Nat
  deriving DecidableEq

/-- Modelled from the spec: the inactive introspection response. -/
def inactiveResult : IntrospectResult := ⟨false, none, none, none⟩

/-- Modelled from the spec: introspection normalization (spec.md §4.4, §7).
The argument is the outcome of the storage read for the presented token: a
storage exception (`Except.error`), a miss, or the record found.  A failed or
missing read and an expired record all normalize to `active:false`; the
function is total, so introspection never surfaces an error response. -/
def introspectRead (readResult : Except String (Option AccessRec)) (now : Nat) :
    IntrospectResult :=
  match readResult with
  | .error _ => inactiveResult
  | .ok none => inactiveResult
  | .ok (some aRec) =>
    if now > aRec.expiresAt then inactiveResult
    else ⟨true, some aRec.scope, some aRec.clientId, some (aRec.expiresAt / 1000)⟩

/-- Modelled from the spec: `POST /introspect` over the provider state — a
pure read of the access-token store; the state component of the result is the
input state. -/
def introspect (st : ProviderState) (token : String) (now : Nat) :
    IntrospectResult × ProviderState :=
  (introspectRead (.ok (lookupL st.accessTokens token)) now, st)

/-- A demonstration configuration for concrete witnesses; the abstract S256
digest is the identity and the token-exchange callback echoes the context. -/
def demoConfig : OAuthConfig :=
  { issuer := "http://localhost:8787"
    strictMode := true
    scopesSupported := ["read", "write"]
    accessTtl := 3600
    refreshTtl := 2592000
    csrfTtl := 600
    codeTtl := 600
    markerTtl := 60
    hash := fun s => s
    callback := fun _ c => .ok c }

/-- `demoConfig` with strict mode off. -/
def demoConfigLax : OAuthConfig :=
  { demoConfig with strictMode := false }

/-- An empty provider state for concrete witnesses. -/
def emptyState : ProviderState := ⟨[], [], [], [], [], []⟩

/-- C3: every authorization response `POST /authorize` delivers by redirect —
consent approval (carrying `code` and `state`) and consent denial (carrying
`error=access_denied` and `state`) alike — has an `iss` query parameter
exactly equal to the issuer configured at provider construction. -/
theorem authorize_redirects_carry_iss (cfg : OAuthConfig) (st : ProviderState)
    (f : AuthForm) (userId ctx : String) (now : Nat) (newCode : String)
    (s : Nat) (b : String) (ps : List (String × String))
    (h : (postAuthorize cfg st f userId ctx now newCode).1 = .redirect s b ps) :
    ("iss", cfg.issuer) ∈ ps := by
  unfold postAuthorize at h
  split at h
  · simp at h
  · split at h
    · simp at h
    · split at h
      · simp at h
      · split at h
        · simp only at h
          rw [PostResult.redirect.injEq] at h
          obtain ⟨-, -, hps⟩ := h
          rw [← hps]
          simp
        · simp only at h
          rw [PostResult.redirect.injEq] at h
          obtain ⟨-, -, hps⟩ := h
          rw [← hps]
          simp

/-- Witness for the C3 theorem: a concrete denial submission redirects with
`iss` present. -/
theorem authorize_redirects_carry_iss_witness :
    ("iss", "http://localhost:8787") ∈
      [("error", "access_denied"), ("state", "s1"), ("iss", "http://localhost:8787")] :=
  authorize_redirects_carry_iss demoConfig
    { emptyState with
        csrfs := [("t1", ⟨"c1", "https://client.example.com/callback", 1000⟩)] }
    { action := "deny", csrfToken := "t1", clientId := "c1",
      redirectUri := "https://client.example.com/callback", scope := "read",
      state := some "s1", codeChallenge := none, codeChallengeMethod := none }
    "u1" "ctx" 0 "code1" 302 "https://client.example.com/callback"
    [("error", "access_denied"), ("state", "s1"), ("iss", "http://localhost:8787")]
    (by decide)

/-- C6: `/authorize` redirect-URI validation is an exact string match against
the client's registered `redirect_uris`: any request whose `redirect_uri` is
not literally one of them is answered with a direct JSON 400
`invalid_request`, never a redirect. -/
theorem redirect_uri_exact_match (cfg : OAuthConfig) (st : ProviderState)
    (q : AuthQuery) (now : Nat) (newCsrf : String) (client : ClientRec)
    (hrt : q.responseType = "code")
    (hc : lookupL st.clients q.clientId = some client)
    (hmem : client.redirectUris.contains q.redirectUri = false) :
    (getAuthorize cfg st q now newCsrf).1
      = .jsonError 400 "invalid_request" "Invalid redirect_uri"
    ∧ ∀ s b ps, (getAuthorize cfg st q now newCsrf).1 ≠ .redirectError s b ps := by
  have h1 : ¬ q.responseType ≠ "code" := fun hh => hh hrt
  have h2 : ¬ client.redirectUris.contains q.redirectUri = true := by
    rw [hmem]; exact Bool.false_ne_true
  simp only [getAuthorize, if_neg h1, hc]
  rw [if_pos h2]
  exact ⟨rfl, by simp⟩

/-- Witness for the C6 theorem: a `redirect_uri` differing by a trailing
slash from the registered one is rejected with JSON 400 `invalid_request`. -/
theorem redirect_uri_exact_match_witness :
    (getAuthorize demoConfig
      { emptyState with
          clients := [("c1", ⟨"c1", some "sec", ["https://client.example.com/callback"],
            "Test Client", "client_secret_basic"⟩)] }
      { responseType := "code", clientId := "c1",
        redirectUri := "https://client.example.com/callback/", scope := some "read",
        state := some "s1", codeChallenge := none, codeChallengeMethod := none }
      0 "csrf1").1
      = .jsonError 400 "invalid_request" "Invalid redirect_uri" :=
  (redirect_uri_exact_match demoConfig
    { emptyState with
        clients := [("c1", ⟨"c1", some "sec", ["https://client.example.com/callback"],
          "Test Client", "client_secret_basic"⟩)] }
    { responseType := "code", clientId := "c1",
      redirectUri := "https://client.example.com/callback/", scope := some "read",
      state := some "s1", codeChallenge := none, codeChallengeMethod := none }
    0 "csrf1"
    ⟨"c1", some "sec", ["https://client.example.com/callback"],
      "Test Client", "client_secret_basic"⟩
    rfl (by decide) (by decide)).1

/-- C7: introspection always yields a response object with an `active`
boolean; a storage read failure, a missing token and an expired record all
normalize to `active:false` rather than an error, and introspecting leaves
the provider state unchanged. -/
theorem introspection_never_errors (e : String) (aRec : AccessRec) (now : Nat)
    (st : ProviderState) (token : String) (hexp : now > aRec.expiresAt) :
    introspectRead (.error e) now = inactiveResult
    ∧ introspectRead (.ok none) now = inactiveResult
    ∧ introspectRead (.ok (some aRec)) now = inactiveResult
    ∧ inactiveResult.active = false
    ∧ (introspect st token now).2 = st := by
  refine ⟨rfl, rfl, ?_, rfl, rfl⟩
  simp [introspectRead, hexp]

/-- Witness for the C7 theorem at a concrete expired record and state. -/
theorem introspection_never_errors_witness :
    introspectRead (.error "storage error") 5000 = inactiveResult
    ∧ introspectRead (.ok none) 5000 = inactiveResult
    ∧ introspectRead (.ok (some ⟨"c1", "u1", "read", "ctx", "fam1", 4000⟩)) 5000
        = inactiveResult
    ∧ inactiveResult.active = false
    ∧ (introspect emptyState "tok" 5000).2 = emptyState :=
  introspection_never_errors "storage error" ⟨"c1", "u1", "read", "ctx", "fam1", 4000⟩
    5000 emptyState "tok" (by decide)

/-- A `POST /authorize` whose CSRF token has no stored record is answered
with the CSRF JSON 400 and an unchanged state. -/
theorem postAuthorize_csrf_missing (cfg : OAuthConfig) (st : ProviderState)
    (f : AuthForm) (userId ctx : String) (now : Nat) (newCode : String)
    (h : lookupL st.csrfs f.csrfToken = none) :
    postAuthorize cfg st f userId ctx now newCode
      = (.jsonError 400 "invalid_request" "Invalid CSRF token", st) := by
  simp [postAuthorize, h]

/-- C5: CSRF validation on `POST /authorize` is exact and single-use: a
submission whose token has no live stored record matching the client and
redirect URI — including a token already consumed by an earlier successful
submission — gets a JSON 400 `invalid_request` whose description references
CSRF and never a redirect, while a successful validation deletes the stored
token, so an immediate resubmission of the same form fails. -/
theorem csrf_exact_and_single_use (cfg : OAuthConfig) (st : ProviderState)
    (f : AuthForm) (userId ctx : String) (now : Nat) (newCode : String) :
    (lookupL st.csrfs f.csrfToken = none →
      (postAuthorize cfg st f userId ctx now newCode).1
        = .jsonError 400 "invalid_request" "Invalid CSRF token")
    ∧ (∀ csrfRec, lookupL st.csrfs f.csrfToken = some csrfRec →
        (now > csrfRec.expiresAt ∨ csrfRec.clientId ≠ f.clientId
          ∨ csrfRec.redirectUri ≠ f.redirectUri) →
        (postAuthorize cfg st f userId ctx now newCode).1
          = .jsonError 400 "invalid_request" "Invalid CSRF token")
    ∧ (∀ csrfRec, lookupL st.csrfs f.csrfToken = some csrfRec →
        ¬ now > csrfRec.expiresAt → csrfRec.clientId = f.clientId →
        csrfRec.redirectUri = f.redirectUri →
        lookupL (postAuthorize cfg st f userId ctx now newCode).2.csrfs f.csrfToken
          = none
        ∧ ∀ userId₂ ctx₂ now₂ newCode₂,
            (postAuthorize cfg (postAuthorize cfg st f userId ctx now newCode).2 f
              userId₂ ctx₂ now₂ newCode₂).1
              = .jsonError 400 "invalid_request" "Invalid CSRF token")
    ∧ (∀ s b ps, PostResult.jsonError 400 "invalid_request" "Invalid CSRF token"
        ≠ .redirect s b ps)
    ∧ mentions "CSRF" "Invalid CSRF token" = true := by
  refine ⟨fun h => ?_, fun csrfRec h hbad => ?_, fun csrfRec h hexp hcid huri => ?_,
    by simp, by decide⟩
  · exact congrArg Prod.fst (postAuthorize_csrf_missing cfg st f userId ctx now newCode h)
  · by_cases he : now > csrfRec.expiresAt
    · simp only [postAuthorize, h]
      rw [if_pos he]
    · have hbad' : csrfRec.clientId ≠ f.clientId ∨ csrfRec.redirectUri ≠ f.redirectUri := by
        rcases hbad with h1 | h2 | h3
        · exact absurd h1 he
        · exact Or.inl h2
        · exact Or.inr h3
      simp only [postAuthorize, h]
      rw [if_neg he, if_pos hbad']
  · have hmatch : ¬ (csrfRec.clientId ≠ f.clientId ∨ csrfRec.redirectUri ≠ f.redirectUri) := by
      rw [hcid, huri]; simp
    have hcsrfs : (postAuthorize cfg st f userId ctx now newCode).2.csrfs
        = eraseL st.csrfs f.csrfToken := by
      simp only [postAuthorize, h]
      rw [if_neg hexp, if_neg hmatch]
      by_cases ha : f.action = "approve"
      · rw [if_pos ha]
      · rw [if_neg ha]
    have hgone : lookupL (postAuthorize cfg st f userId ctx now newCode).2.csrfs
        f.csrfToken = none := by
      rw [hcsrfs, lookupL_eraseL_self]
    refine ⟨hgone, fun userId₂ ctx₂ now₂ newCode₂ => ?_⟩
    exact congrArg Prod.fst (postAuthorize_csrf_missing cfg
      (postAuthorize cfg st f userId ctx now newCode).2 f userId₂ ctx₂ now₂ newCode₂ hgone)

/-- Witness for the C5 theorem: a valid concrete submission consumes the
token and an identical resubmission fails with the CSRF JSON 400. -/
theorem csrf_exact_and_single_use_witness :
    lookupL (postAuthorize demoConfig
        { emptyState with
            csrfs := [("t1", ⟨"c1", "https://client.example.com/callback", 9000⟩)] }
        { action := "approve", csrfToken := "t1", clientId := "c1",
          redirectUri := "https://client.example.com/callback", scope := "read",
          state := some "s1", codeChallenge := none, codeChallengeMethod := none }
        "u1" "ctx" 0 "code1").2.csrfs "t1" = none
    ∧ ∀ userId₂ ctx₂ now₂ newCode₂,
        (postAuthorize demoConfig
          (postAuthorize demoConfig
            { emptyState with
                csrfs := [("t1", ⟨"c1", "https://client.example.com/callback", 9000⟩)] }
            { action := "approve", csrfToken := "t1", clientId := "c1",
              redirectUri := "https://client.example.com/callback", scope := "read",
              state := some "s1", codeChallenge := none, codeChallengeMethod := none }
            "u1" "ctx" 0 "code1").2
          { action := "approve", csrfToken := "t1", clientId := "c1",
            redirectUri := "https://client.example.com/callback", scope := "read",
            state := some "s1", codeChallenge := none, codeChallengeMethod := none }
          userId₂ ctx₂ now₂ newCode₂).1
          = .jsonError 400 "invalid_request" "Invalid CSRF token" :=
  (csrf_exact_and_single_use demoConfig
    { emptyState with
        csrfs := [("t1", ⟨"c1", "https://client.example.com/callback", 9000⟩)] }
    { action := "approve", csrfToken := "t1", clientId := "c1",
      redirectUri := "https://client.example.com/callback", scope := "read",
      state := some "s1", codeChallenge := none, codeChallengeMethod := none }
    "u1" "ctx" 0 "code1").2.2.1
    ⟨"c1", "https://client.example.com/callback", 9000⟩
    (by decide) (by decide) rfl rfl

/-- C4: in strict mode a public client (`token_endpoint_auth_method`
`"none"`) with a valid `client_id` and registered `redirect_uri` but no
`code_challenge` receives a 302 redirect to the `redirect_uri` carrying
`error=invalid_request`, an `error_description` mentioning PKCE, the
request's `state`, and `iss` equal to the configured issuer; with strict mode
off a confidential client without PKCE proceeds to the consent page. -/
theorem strict_pkce_enforcement (cfg : OAuthConfig) (st : ProviderState)
    (q : AuthQuery) (now : Nat) (newCsrf : String) (client : ClientRec) (s : String)
    (hrt : q.responseType = "code")
    (hc : lookupL st.clients q.clientId = some client)
    (hmem : client.redirectUris.contains q.redirectUri = true)
    (hscope : scopeOk cfg q.scope = true)
    (hstate : q.state = some s)
    (hnopkce : q.codeChallenge = none) :
    (cfg.strictMode = true → client.authMethod = "none" →
      (getAuthorize cfg st q now newCsrf).1
        = .redirectError 302 q.redirectUri
            [("error", "invalid_request"),
             ("error_description", "PKCE code_challenge is required for public clients"),
             ("state", s), ("iss", cfg.issuer)]
      ∧ mentions "PKCE" "PKCE code_challenge is required for public clients" = true)
    ∧ (cfg.strictMode = false → client.authMethod ≠ "none" →
      (getAuthorize cfg st q now newCsrf).1 = .consentPage client.clientName newCsrf) := by
  have h1 : ¬ q.responseType ≠ "code" := fun hh => hh hrt
  have h2 : ¬ ¬ client.redirectUris.contains q.redirectUri = true := by
    rw [hmem]; simp
  have h3 : ¬ ¬ scopeOk cfg q.scope = true := by
    rw [hscope]; simp
  constructor
  · intro hstrict hpub
    constructor
    · simp only [getAuthorize, if_neg h1, hc]
      rw [if_neg h2, if_neg h3, if_pos ⟨by rw [hstrict], hpub, hnopkce⟩]
      rw [hstate]
      simp [stateParam]
    · decide
  · intro hstrict hconf
    simp only [getAuthorize, if_neg h1, hc]
    rw [if_neg h2, if_neg h3,
      if_neg (fun hh : cfg.strictMode ∧ _ ∧ _ => Bool.false_ne_true (hstrict ▸ hh.1))]

/-- Witness for the C4 theorem: in strict mode a registered public client
without `code_challenge` is redirected with the PKCE `invalid_request` error,
`state` and `iss`; with strict mode off a confidential client without PKCE
reaches the consent page. -/
theorem strict_pkce_enforcement_witness :
    ((getAuthorize demoConfig
        { emptyState with
            clients := [("p1", ⟨"p1", none, ["https://client.example.com/callback"],
              "Public Client", "none"⟩)] }
        { responseType := "code", clientId := "p1",
          redirectUri := "https://client.example.com/callback", scope := some "read",
          state := some "s1", codeChallenge := none, codeChallengeMethod := none }
        0 "csrf1").1
      = .redirectError 302 "https://client.example.com/callback"
          [("error", "invalid_request"),
           ("error_description", "PKCE code_challenge is required for public clients"),
           ("state", "s1"), ("iss", "http://localhost:8787")])
    ∧ ((getAuthorize demoConfigLax
        { emptyState with
            clients := [("c1", ⟨"c1", some "sec", ["https://client.example.com/callback"],
              "Confidential Client", "client_secret_basic"⟩)] }
        { responseType := "code", clientId := "c1",
          redirectUri := "https://client.example.com/callback", scope := some "read",
          state := some "s1", codeChallenge := none, codeChallengeMethod := none }
        0 "csrf1").1 = .consentPage "Confidential Client" "csrf1") :=
  ⟨((strict_pkce_enforcement demoConfig
      { emptyState with
          clients := [("p1", ⟨"p1", none, ["https://client.example.com/callback"],
            "Public Client", "none"⟩)] }
      { responseType := "code", clientId := "p1",
        redirectUri := "https://client.example.com/callback", scope := some "read",
        state := some "s1", codeChallenge := none, codeChallengeMethod := none }
      0 "csrf1"
      ⟨"p1", none, ["https://client.example.com/callback"], "Public Client", "none"⟩
      "s1" rfl (by decide) (by decide) (by decide) rfl rfl).1 rfl rfl).1,
   (strict_pkce_enforcement demoConfigLax
      { emptyState with
          clients := [("c1", ⟨"c1", some "sec", ["https://client.example.com/callback"],
            "Confidential Client", "client_secret_basic"⟩)] }
      { responseType := "code", clientId := "c1",
        redirectUri := "https://client.example.com/callback", scope := some "read",
        state := some "s1", codeChallenge := none, codeChallengeMethod := none }
      0 "csrf1"
      ⟨"c1", some "sec", ["https://client.example.com/callback"],
        "Confidential Client", "client_secret_basic"⟩
      "s1" rfl (by decide) (by decide) (by decide) rfl rfl).2 rfl (by decide)⟩

/-- An `authorization_code` grant for a code with no stored record fails
`invalid_grant` with the state unchanged. -/
theorem exchangeCode_code_missing (cfg : OAuthConfig) (st : ProviderState)
    (code clientId : String) (verifier : Option String) (now : Nat)
    (newAccess newRefresh newFamily : String)
    (h : lookupL st.codes code = none) :
    exchangeCode cfg st code clientId verifier now newAccess newRefresh newFamily
      = (.error .invalidGrant, st) := by
  simp [exchangeCode, h]

/-- C2: a minted authorization code is single-use: a successful
`authorization_code` grant issues the token pair and deletes the code record
in the same operation, and any second exchange attempt with that code — at
any time, by any client, with any verifier — fails `invalid_grant`. -/
theorem auth_code_single_use (cfg : OAuthConfig) (st : ProviderState)
    (code clientId : String) (verifier : Option String) (now : Nat)
    (newAccess newRefresh newFamily : String) (codeRec : AuthCodeRec)
    (newContext : String)
    (h1 : lookupL st.codes code = some codeRec)
    (h2 : ¬ now > codeRec.expiresAt)
    (h3 : codeRec.clientId = clientId)
    (h4 : pkceOk cfg codeRec verifier = true)
    (h5 : cfg.callback .authorizationCode codeRec.context = .ok newContext) :
    (exchangeCode cfg st code clientId verifier now newAccess newRefresh newFamily).1
      = .ok ⟨newAccess, "bearer", cfg.accessTtl, newRefresh, codeRec.scope⟩
    ∧ lookupL (exchangeCode cfg st code clientId verifier now newAccess newRefresh
        newFamily).2.codes code = none
    ∧ ∀ clientId₂ verifier₂ now₂ a₂ r₂ fam₂,
        (exchangeCode cfg
          (exchangeCode cfg st code clientId verifier now newAccess newRefresh newFamily).2
          code clientId₂ verifier₂ now₂ a₂ r₂ fam₂).1 = .error .invalidGrant := by
  have hcid : ¬ codeRec.clientId ≠ clientId := fun hh => hh h3
  have hpkce : ¬ ¬ pkceOk cfg codeRec verifier = true := by rw [h4]; simp
  have hres : exchangeCode cfg st code clientId verifier now newAccess newRefresh newFamily
      = (.ok ⟨newAccess, "bearer", cfg.accessTtl, newRefresh, codeRec.scope⟩,
         { st with
            codes := eraseL st.codes code,
            accessTokens := setL st.accessTokens newAccess
              ⟨codeRec.clientId, codeRec.userId, codeRec.scope, newContext,
               newFamily, now + cfg.accessTtl * 1000⟩,
            refreshTokens := setL st.refreshTokens newRefresh
              ⟨codeRec.clientId, codeRec.userId, codeRec.scope, newContext,
               newFamily, now + cfg.refreshTtl * 1000⟩ }) := by
    simp only [exchangeCode, h1]
    rw [if_neg h2, if_neg hcid, if_neg hpkce, h5]
  have hgone : lookupL (exchangeCode cfg st code clientId verifier now newAccess
      newRefresh newFamily).2.codes code = none := by
    rw [hres]
    exact lookupL_eraseL_self st.codes code
  refine ⟨by rw [hres], hgone, fun clientId₂ verifier₂ now₂ a₂ r₂ fam₂ => ?_⟩
  exact congrArg Prod.fst (exchangeCode_code_missing cfg
    (exchangeCode cfg st code clientId verifier now newAccess newRefresh newFamily).2
    code clientId₂ verifier₂ now₂ a₂ r₂ fam₂ hgone)

/-- Witness for the C2 theorem: a concrete code exchanged once succeeds and
is gone; the immediate replay fails `invalid_grant`. -/
theorem auth_code_single_use_witness :
    (exchangeCode demoConfig
        { emptyState with
            codes := [("code1", ⟨"c1", "https://client.example.com/callback", "read",
              "u1", none, none, "ctx", 600000⟩)] }
        "code1" "c1" none 0 "A1" "R1" "fam1").1
      = .ok ⟨"A1", "bearer", 3600, "R1", "read"⟩
    ∧ lookupL (exchangeCode demoConfig
        { emptyState with
            codes := [("code1", ⟨"c1", "https://client.example.com/callback", "read",
              "u1", none, none, "ctx", 600000⟩)] }
        "code1" "c1" none 0 "A1" "R1" "fam1").2.codes "code1" = none
    ∧ ∀ clientId₂ verifier₂ now₂ a₂ r₂ fam₂,
        (exchangeCode demoConfig
          (exchangeCode demoConfig
            { emptyState with
                codes := [("code1", ⟨"c1", "https://client.example.com/callback", "read",
                  "u1", none, none, "ctx", 600000⟩)] }
            "code1" "c1" none 0 "A1" "R1" "fam1").2
          "code1" clientId₂ verifier₂ now₂ a₂ r₂ fam₂).1 = .error .invalidGrant :=
  auth_code_single_use demoConfig
    { emptyState with
        codes := [("code1", ⟨"c1", "https://client.example.com/callback", "read",
          "u1", none, none, "ctx", 600000⟩)] }
    "code1" "c1" none 0 "A1" "R1" "fam1"
    ⟨"c1", "https://client.example.com/callback", "read", "u1", none, none, "ctx", 600000⟩
    "ctx" (by decide) (by decide) rfl (by decide) rfl

/-- A provider state holding one live refresh token `R1` of family `fam1`
expiring far in the future, for the C1 concrete scenarios. -/
def demoRefreshState : ProviderState :=
  { emptyState with
      refreshTokens := [("R1", ⟨"c1", "u1", "read", "ctx", "fam1", 10000000000⟩)] }

/-- C1 counterexample: rotating `R1` at time `0` (yielding `A2`/`R2`) leaves
a reuse marker with its own short TTL (`markerTtl = 60` s in `demoConfig`);
presenting `R1` again at `1000000` ms — after the marker expired — fails
`invalid_grant` but does *not* invalidate the family: `R2` is still stored.
So "any later presentation of R1 … additionally invalidates every token in
the family" is false as stated. -/
theorem refresh_reuse_after_marker_expiry_spares_family :
    (refreshGrant demoConfig
        (refreshGrant demoConfig demoRefreshState "R1" "c1" 0 "A2" "R2").2
        "R1" "c1" 1000000 "A3" "R3").1 = .error .invalidGrant
    ∧ lookupL (refreshGrant demoConfig
        (refreshGrant demoConfig demoRefreshState "R1" "c1" 0 "A2" "R2").2
        "R1" "c1" 1000000 "A3" "R3").2.refreshTokens "R2"
        = some ⟨"c1", "u1", "read", "ctx", "fam1", 2592000000⟩ :=
  ⟨rfl, rfl⟩

/-- C1 (amended): presenting a live refresh token `R1` rotates it — the
grant returns a fresh access token `A2` and refresh token `R2`, `R2` (and
`A2`) carry `R1`'s `familyId`, and `R1` is invalidated in the same
operation; every later presentation of `R1` fails `invalid_grant`, and a
presentation made while the short-lived rotation marker is still live
additionally invalidates every token in the family, including `A2` and
`R2`. -/
theorem refresh_rotation_family_revocation (cfg : OAuthConfig) (st : ProviderState)
    (token clientId : String) (now : Nat) (newAccess newRefresh : String)
    (rRec : RefreshRec) (newContext : String)
    (h1 : lookupL st.refreshTokens token = some rRec)
    (h2 : ¬ now > rRec.expiresAt)
    (h3 : rRec.clientId = clientId)
    (h4 : cfg.callback .refreshToken rRec.context = .ok newContext)
    (h5 : newRefresh ≠ token) :
    (refreshGrant cfg st token clientId now newAccess newRefresh).1
      = .ok ⟨newAccess, "bearer", cfg.accessTtl, newRefresh, rRec.scope⟩
    ∧ (∃ rRec₂, lookupL (refreshGrant cfg st token clientId now newAccess
        newRefresh).2.refreshTokens newRefresh = some rRec₂
        ∧ rRec₂.familyId = rRec.familyId)
    ∧ (∃ aRec₂, lookupL (refreshGrant cfg st token clientId now newAccess
        newRefresh).2.accessTokens newAccess = some aRec₂
        ∧ aRec₂.familyId = rRec.familyId)
    ∧ lookupL (refreshGrant cfg st token clientId now newAccess
        newRefresh).2.refreshTokens token = none
    ∧ (∀ clientId₂ now₂ a₃ r₃,
        (refreshGrant cfg (refreshGrant cfg st token clientId now newAccess newRefresh).2
          token clientId₂ now₂ a₃ r₃).1 = .error .invalidGrant)
    ∧ (∀ clientId₂ now₂ a₃ r₃, ¬ now₂ > now + cfg.markerTtl * 1000 →
        lookupL (refreshGrant cfg
            (refreshGrant cfg st token clientId now newAccess newRefresh).2
            token clientId₂ now₂ a₃ r₃).2.refreshTokens newRefresh = none
        ∧ lookupL (refreshGrant cfg
            (refreshGrant cfg st token clientId now newAccess newRefresh).2
            token clientId₂ now₂ a₃ r₃).2.accessTokens newAccess = none
        ∧ (∀ t rr, lookupL (refreshGrant cfg
            (refreshGrant cfg st token clientId now newAccess newRefresh).2
            token clientId₂ now₂ a₃ r₃).2.refreshTokens t = some rr →
            rr.familyId ≠ rRec.familyId)
        ∧ (∀ t ar, lookupL (refreshGrant cfg
            (refreshGrant cfg st token clientId now newAccess newRefresh).2
            token clientId₂ now₂ a₃ r₃).2.accessTokens t = some ar →
            ar.familyId ≠ rRec.familyId)) := by
  have hcid : ¬ rRec.clientId ≠ clientId := fun hh => hh h3
  have htne : token ≠ newRefresh := fun hh => h5 hh.symm
  have hres : refreshGrant cfg st token clientId now newAccess newRefresh
      = (.ok ⟨newAccess, "bearer", cfg.accessTtl, newRefresh, rRec.scope⟩,
         { st with
            refreshTokens := setL (eraseL st.refreshTokens token) newRefresh
              ⟨rRec.clientId, rRec.userId, rRec.scope, newContext, rRec.familyId,
               now + cfg.refreshTtl * 1000⟩,
            accessTokens := setL st.accessTokens newAccess
              ⟨rRec.clientId, rRec.userId, rRec.scope, newContext, rRec.familyId,
               now + cfg.accessTtl * 1000⟩,
            rotatedMarkers := setL st.rotatedMarkers token
              ⟨rRec.familyId, now + cfg.markerTtl * 1000⟩ }) := by
    simp only [refreshGrant, h1]
    rw [if_neg h2, if_neg hcid, h4]
  have hgone : lookupL (refreshGrant cfg st token clientId now newAccess
      newRefresh).2.refreshTokens token = none := by
    rw [hres]
    show lookupL (setL (eraseL st.refreshTokens token) newRefresh _) token = none
    rw [lookupL_setL_ne _ _ _ _ htne, lookupL_eraseL_self]
  have hmarker : lookupL (refreshGrant cfg st token clientId now newAccess
      newRefresh).2.rotatedMarkers token
      = some ⟨rRec.familyId, now + cfg.markerTtl * 1000⟩ := by
    rw [hres]
    exact lookupL_setL_self _ _ _
  have hreuse : ∀ clientId₂ now₂ a₃ r₃,
      refreshGrant cfg (refreshGrant cfg st token clientId now newAccess newRefresh).2
        token clientId₂ now₂ a₃ r₃
        = if now₂ > now + cfg.markerTtl * 1000 then
            (.error .invalidGrant,
             (refreshGrant cfg st token clientId now newAccess newRefresh).2)
          else
            (.error .invalidGrant,
             revokeFamily (refreshGrant cfg st token clientId now newAccess newRefresh).2
               rRec.familyId) := by
    intro clientId₂ now₂ a₃ r₃
    generalize hst : (refreshGrant cfg st token clientId now newAccess newRefresh).2 = st₁
      at hgone hmarker ⊢
    simp only [refreshGrant, hgone, hmarker]
  refine ⟨by rw [hres], ?_, ?_, hgone, ?_, ?_⟩
  · rw [hres]
    exact ⟨_, lookupL_setL_self _ _ _, rfl⟩
  · rw [hres]
    exact ⟨_, lookupL_setL_self _ _ _, rfl⟩
  · intro clientId₂ now₂ a₃ r₃
    by_cases hm : now₂ > now + cfg.markerTtl * 1000
    · rw [hreuse clientId₂ now₂ a₃ r₃, if_pos hm]
    · rw [hreuse clientId₂ now₂ a₃ r₃, if_neg hm]
  · intro clientId₂ now₂ a₃ r₃ hm
    rw [hreuse clientId₂ now₂ a₃ r₃, if_neg hm, hres]
    dsimp only [revokeFamily]
    refine ⟨?_, ?_, ?_, ?_⟩
    · exact lookupL_setL_filter_out _ _ _ _ (by simp)
    · exact lookupL_setL_filter_out _ _ _ _ (by simp)
    · intro t rr hrr
      have hp := lookupL_filter_some _ _ _ _ hrr
      simpa using hp
    · intro t ar har
      have hp := lookupL_filter_some _ _ _ _ har
      simpa using hp

/-- Witness for the C1 theorem: `R1` rotated at `0` ms yields `A2`/`R2`;
reuse of `R1` at `30000` ms (marker still live) fails `invalid_grant` and
removes `R2` and `A2`. -/
theorem refresh_rotation_family_revocation_witness :
    (refreshGrant demoConfig demoRefreshState "R1" "c1" 0 "A2" "R2").1
      = .ok ⟨"A2", "bearer", 3600, "R2", "read"⟩
    ∧ lookupL (refreshGrant demoConfig demoRefreshState "R1" "c1" 0 "A2"
        "R2").2.refreshTokens "R1" = none
    ∧ (refreshGrant demoConfig
        (refreshGrant demoConfig demoRefreshState "R1" "c1" 0 "A2" "R2").2
        "R1" "c1" 30000 "A3" "R3").1 = .error .invalidGrant
    ∧ lookupL (refreshGrant demoConfig
        (refreshGrant demoConfig demoRefreshState "R1" "c1" 0 "A2" "R2").2
        "R1" "c1" 30000 "A3" "R3").2.refreshTokens "R2" = none
    ∧ lookupL (refreshGrant demoConfig
        (refreshGrant demoConfig demoRefreshState "R1" "c1" 0 "A2" "R2").2
        "R1" "c1" 30000 "A3" "R3").2.accessTokens "A2" = none :=
  let h := refresh_rotation_family_revocation demoConfig demoRefreshState "R1" "c1" 0
    "A2" "R2" ⟨"c1", "u1", "read", "ctx", "fam1", 10000000000⟩ "ctx"
    rfl (by decide) rfl rfl (by decide)
  ⟨h.1, h.2.2.2.1, h.2.2.2.2.1 "c1" 30000 "A3" "R3",
   (h.2.2.2.2.2 "c1" 30000 "A3" "R3" (by decide)).1,
   (h.2.2.2.2.2 "c1" 30000 "A3" "R3" (by decide)).2.1⟩

end HonoOAuth
